import Mathlib

/-!
Shallow embedding of the hotplug coordinator of the cml container-management
daemon (source: src/daemon/hotplug.c) together with theorems settling the
specification's claims about it.

Conventions of the embedding:
* C structs become Lean structures; the global mapping lists become explicit
  list arguments threaded through the functions that read or extend them.
* Calls into collaborators (container.c, cmld.c, common/network.c,
  common/uevent.c, the kernel) are represented either as oracle inputs
  (results of sysfs reads, of `network_get_mac_by_ifname`, of the kernel
  rename) or as emitted `HAction` values recording the call and its
  arguments, in program order.
* The function-level `static` variables of hotplug.c (the two interface
  rename counters and the token timer retry counter) become explicitly
  threaded state.
-/

/-- Compartment states, mirroring `compartment_state_t` as used through
`container_get_state` in hotplug.c. -/
inductive CompartmentState where
  | stopped
  | starting
  | booting
  | running
  | freezing
  | frozen
  | shuttingDown
  | zombie
  | rebooting
  | setup
deriving DecidableEq, Repr

/-- `hotplug_usbdev_type_t`. -/
inductive UsbdevType where
  | generic
  | token
deriving DecidableEq, Repr

/-- `struct hotplug_usbdev` (hotplug.c lines 58-66). -/
structure Usbdev where
  i_serial : String
  id_vendor : Nat
  id_product : Nat
  major : Int
  minor : Int
  assign : Bool
  type : UsbdevType
deriving DecidableEq, Repr

/-- `hotplug_container_dev_mapping_t`: a usb device mapped to a container.
The container is represented by its numeric identity. -/
structure DevMapping where
  container : Nat
  usbdev : Usbdev
  assign : Bool
deriving DecidableEq, Repr

/-- Physical-network configuration (`container_pnet_cfg_t`) as far as
hotplug.c reads and writes it: the name string and the MAC-filter flag. -/
structure PnetCfg where
  pnet_name : String
  mac_filter : Bool
deriving DecidableEq, Repr

/-- `hotplug_container_netdev_mapping_t`: a 6-byte MAC bound to a container
with its pnet configuration. The MAC is a list of byte values. -/
structure NetdevMapping where
  container : Nat
  pnet : PnetCfg
  mac : List Nat
deriving DecidableEq, Repr

/-- A decoded kernel uevent (`uevent_event_t`) with the fields hotplug.c
consumes. -/
structure Uevent where
  action : String
  subsystem : String
  devtype : String
  devpath : String
  devname : String
  interface : String
  major : Int
  minor : Int
  usb_vendor : Nat
  usb_product : Nat
deriving DecidableEq, Repr

/-- Calls the coordinator makes into its collaborators, recorded in program
order: `container_device_allow`, `container_device_deny`,
`container_token_detach`, `event_timer_new`/`event_add_timer` for the token
debounce, the `cmld_netif_phys_*` bookkeeping around a rename,
`cmld_container_add_net_iface` (with its result), and
`uevent_event_inject_into_netns`. -/
inductive HAction where
  | deviceAllow (container : Nat) (devchar : Char) (major minor : Int) (assign : Bool)
  | deviceDeny (container : Nat) (devchar : Char) (major minor : Int)
  | tokenDetach (container : Nat)
  | scheduleTokenTimer (period_ms : Nat) (container : Nat) (devname : String)
  | cmldNetifPhysRename (oldname newname : String)
  | addNetIface (container : Nat) (cfg : PnetCfg) (ok : Bool)
  | injectUevent (container : Nat) (iface devpath : String)
deriving DecidableEq, Repr

/-- `strncmp (a, b, strlen b) == 0`, i.e. `b` is a prefix of `a`. -/
def strIsPrefix (p s : String) : Bool :=
  p.data.isPrefixOf s.data

/-- `hotplug_usbdev_new` (hotplug.c lines 76-89): fresh records carry
`major = minor = -1`. -/
def hotplug_usbdev_new (type : UsbdevType) (id_vendor id_product : Nat)
    (i_serial : String) (assign : Bool) : Usbdev :=
  { i_serial := i_serial
    id_vendor := id_vendor
    id_product := id_product
    major := -1
    minor := -1
    assign := assign
    type := type }

/-- `hotplug_container_dev_mapping_new` (lines 154-169): allocates a zeroed
mapping and copies every `usbdev` field into a fresh record. The C code
never assigns `mapping->assign`, so it stays at its `mem_new0` value
`false`. -/
def hotplug_container_dev_mapping_new (container : Nat) (usbdev : Usbdev) : DevMapping :=
  { container := container
    usbdev :=
      { i_serial := usbdev.i_serial
        id_vendor := usbdev.id_vendor
        id_product := usbdev.id_product
        major := usbdev.major
        minor := usbdev.minor
        assign := usbdev.assign
        type := usbdev.type }
    assign := false }

/-- `hotplug_register_usbdevice` (lines 727-741): unconditionally appends a
fresh mapping to the list and returns 0. -/
def hotplug_register_usbdevice (maps : List DevMapping) (container : Nat)
    (usbdev : Usbdev) : List DevMapping × Int :=
  (maps ++ [hotplug_container_dev_mapping_new container usbdev], 0)

/-- Index of the last element satisfying `p`, mirroring the C loops that
overwrite `mapping_to_remove` on every match. -/
def lastIdxWhere (p : α → Bool) (l : List α) : Option Nat :=
  (l.foldl (fun acc a => (acc.1 + 1, if p a then some acc.1 else acc.2))
    ((0 : Nat), (none : Option Nat))).2

/-- `hotplug_unregister_usbdevice` (lines 743-770): removes the last mapping
matching container, vendor, product and serial; -1 if none matches. -/
def hotplug_unregister_usbdevice (maps : List DevMapping) (container : Nat)
    (usbdev : Usbdev) : List DevMapping × Int :=
  match lastIdxWhere
      (fun m => m.container == container && m.usbdev.id_vendor == usbdev.id_vendor &&
        m.usbdev.id_product == usbdev.id_product && m.usbdev.i_serial == usbdev.i_serial)
      maps with
  | none => (maps, -1)
  | some j => (maps.eraseIdx j, 0)

/-- Registry states reachable through the usb mapping API of hotplug.c. -/
inductive UsbRegReachable : List DevMapping → Prop where
  | init : UsbRegReachable []
  | register (c : Nat) (d : Usbdev) {s : List DevMapping} :
      UsbRegReachable s → UsbRegReachable (hotplug_register_usbdevice s c d).1
  | unregister (c : Nat) (d : Usbdev) {s : List DevMapping} :
      UsbRegReachable s → UsbRegReachable (hotplug_unregister_usbdevice s c d).1

/-- The invariant claimed by the spec: at most one compartment holds a
mapping of kind token with a given serial. -/
def tokenSerialUnique (maps : List DevMapping) : Prop :=
  ∀ m1 ∈ maps, ∀ m2 ∈ maps,
    m1.usbdev.type = UsbdevType.token → m2.usbdev.type = UsbdevType.token →
    m1.usbdev.i_serial = m2.usbdev.i_serial → m1.container = m2.container

/-- Serial post-processing of the usb add branch (lines 604-619): the sysfs
read result (`none` models a missing file or failed read) must be nonempty,
and one trailing newline is stripped. -/
def usb_serial_of : Option String → Option String
  | none => none
  | some raw =>
    if raw.data.length < 1 then none
    else if raw.data.getLast? = some '\n' then some (String.mk raw.data.dropLast)
    else some raw

/-- The match condition of the usb add branch (lines 631-633). -/
def usbAddMatches (e : Uevent) (serial : String) (m : DevMapping) : Bool :=
  m.usbdev.id_vendor == e.usb_vendor && m.usbdev.id_product == e.usb_product &&
    m.usbdev.i_serial == serial

/-- The token device node path built at lines 645-651: prepend the devname
with a slash if it already starts with the four characters of a dev prefix,
with the full dev directory prefix otherwise. -/
def tokenDevnameOf (devname : String) : String :=
  if strIsPrefix "/dev" devname then "/" ++ devname else "/dev/" ++ devname

/-- Processing of one mapping inside the usb add loop (lines 621-663): on a
match the stored major/minor are overwritten with the event's, a token
mapping additionally schedules the 100 ms debounce timer, and a
device-cgroup allow is issued with the updated numbers. -/
def usbAddProcessMapping (e : Uevent) (serial : String) (m : DevMapping) :
    DevMapping × List HAction :=
  if usbAddMatches e serial m then
    let dev' := { m.usbdev with major := e.major, minor := e.minor }
    let tokenActs : List HAction :=
      if m.usbdev.type = UsbdevType.token then
        [HAction.scheduleTokenTimer 100 m.container (tokenDevnameOf e.devname)]
      else []
    ({ m with usbdev := dev' },
      tokenActs ++ [HAction.deviceAllow m.container 'c' dev'.major dev'.minor m.assign])
  else (m, [])

/-- The whole usb add branch (lines 601-665) over the mapping list. -/
def usbAddHandle (e : Uevent) (serialRaw : Option String) (maps : List DevMapping) :
    List DevMapping × List HAction :=
  match usb_serial_of serialRaw with
  | none => (maps, [])
  | some serial =>
    (maps.map (fun m => (usbAddProcessMapping e serial m).1),
      maps.flatMap (fun m => (usbAddProcessMapping e serial m).2))

/-- Processing of one mapping inside the usb remove loop (lines 582-597):
on a major/minor match a token mapping gets `container_token_detach`, any
other mapping gets `container_device_deny`. -/
def usbRemoveStep (e : Uevent) (m : DevMapping) : List HAction :=
  if e.major == m.usbdev.major && e.minor == m.usbdev.minor then
    if m.usbdev.type = UsbdevType.token then [HAction.tokenDetach m.container]
    else [HAction.deviceDeny m.container 'c' m.usbdev.major m.usbdev.minor]
  else []

/-- The whole usb remove branch (lines 580-599). -/
def usbRemoveHandle (e : Uevent) (maps : List DevMapping) : List HAction :=
  maps.flatMap (usbRemoveStep e)

/-- `hotplug_handle_usb_device` (lines 573-667). The `unsigned actions`
bitmask becomes the two flags `addA` and `removeA`; `serialRaw` is the
oracle for the sysfs read of `/sys/<devpath>/serial`. Returns the updated
mapping list, the collaborator calls in program order, and the bool the C
function returns (always false). -/
def hotplug_handle_usb_device (addA removeA : Bool) (e : Uevent)
    (serialRaw : Option String) (maps : List DevMapping) :
    List DevMapping × List HAction × Bool :=
  if strIsPrefix "usb" e.subsystem = false ∨ strIsPrefix "usb_device" e.devtype = false then
    (maps, [], false)
  else
    let remActs := if removeA then usbRemoveHandle e maps else []
    if addA then
      let r := usbAddHandle e serialRaw maps
      (r.1, remActs ++ r.2, false)
    else (maps, remActs, false)

/-- Outcome of one fire of the token debounce timer. -/
inductive TimerStep where
  | again
  | attachAndCancel
  | cancelOnly
deriving DecidableEq, Repr

/-- `hotplug_token_timer_cb` (lines 543-567). `retries` is the value of the
function-level `static int retries` before the fire; the callback always
post-decrements it. `nodeExists` is the oracle for
`file_exists (token_data->devname)`. `again` keeps the timer registered,
the two cancel outcomes free the closure and remove the timer;
`attachAndCancel` additionally invokes `container_token_attach`. -/
def hotplug_token_timer_cb (retries : Int) (nodeExists : Bool) : Int × TimerStep :=
  if 0 > retries then (retries - 1, TimerStep.cancelOnly)
  else if nodeExists = false then (retries - 1, TimerStep.again)
  else (retries - 1, TimerStep.attachAndCancel)

/-- Run one token timer, firing once per entry of the oracle list, until it
cancels itself. Returns the final retry counter, `some true` if the token
was attached, `some false` if the timer cancelled without attaching, `none`
if the oracle ran out first, and the number of fires consumed. -/
def runTokenTimer : Int → List Bool → Int × Option Bool × Nat
  | r, [] => (r, none, 0)
  | r, b :: rest =>
    match hotplug_token_timer_cb r b with
    | (r', TimerStep.again) =>
      let t := runTokenTimer r' rest
      (t.1, t.2.1, t.2.2 + 1)
    | (r', TimerStep.attachAndCancel) => (r', some true, 1)
    | (r', TimerStep.cancelOnly) => (r', some false, 1)

/-- The two function-level static rename counters of
`hotplug_rename_ifi_new` (lines 235-236). They are `static unsigned int`
in the C, so all arithmetic on them wraps modulo 2^32; the values stored
here stay below 2^32. -/
structure RenameState where
  cmld_wlan_idx : Nat
  cmld_eth_idx : Nat
deriving DecidableEq, Repr

/-- Counter selection at line 243: the wlan counter for the wlan infix
string, the eth counter for anything else. -/
def counterOf (pfx : String) (rs : RenameState) : Nat :=
  if pfx = "wlan" then rs.cmld_wlan_idx else rs.cmld_eth_idx

/-- The `*ifi_idx += 1` at line 250: an `unsigned int` increment, which
wraps modulo 2^32. -/
def bumpCounter (pfx : String) (rs : RenameState) : RenameState :=
  if pfx = "wlan" then { rs with cmld_wlan_idx := (rs.cmld_wlan_idx + 1) % 4294967296 }
  else { rs with cmld_eth_idx := (rs.cmld_eth_idx + 1) % 4294967296 }

/-- The counter value as the `%d` conversion of the asprintf at line 245
prints it: the unsigned 32-bit value reinterpreted as a signed int, so
values of 2^31 and above print as negative numbers. -/
def printedIdx (i : Nat) : Int :=
  if i < 2147483648 then (i : Int) else (i : Int) - 4294967296

/-- `hotplug_rename_ifi_new` (lines 232-261): build the new name from the
current counter (printed through `%d`), increment the counter modulo 2^32,
then attempt the kernel rename (`renameOk` is the oracle for
`network_rename_ifi`); on failure return nothing, the counter stays
incremented. -/
def hotplug_rename_ifi_new (oldname pfx : String) (renameOk : Bool) (rs : RenameState) :
    Option String × RenameState :=
  let ifi_idx := counterOf pfx rs
  let newname := "cml" ++ pfx ++ toString (printedIdx ifi_idx)
  let rs' := bumpCounter pfx rs
  if renameOk then (some newname, rs') else (none, rs')

/-- Harness: perform a sequence of rename requests (infix string, kernel
rename outcome) starting from counter state `rs`, recording each
successful rename as (infix, produced name, index drawn). `oldname` plays
no role in name generation. -/
def runRenames : RenameState → List (String × Bool) → List (String × String × Nat)
  | _, [] => []
  | rs, (pfx, ok) :: rest =>
    let r := hotplug_rename_ifi_new "oldif" pfx ok rs
    match r.1 with
    | some newname => (pfx, newname, counterOf pfx rs) :: runRenames r.2 rest
    | none => runRenames r.2 rest

/-- The indices drawn by the successful renames of one family. -/
def familyIdxs (f : String) (l : List (String × String × Nat)) : List Nat :=
  l.filterMap (fun r => if r.1 = f then some r.2.2 else none)

/-- First-occurrence substring replacement over character lists, structural
in the scanned list. -/
def replaceFirstAux : List Char → List Char → List Char → Option (List Char)
  | s, old, new =>
    if old.isPrefixOf s then some (new ++ s.drop old.length)
    else
      match s with
      | [] => none
      | x :: xs => (replaceFirstAux xs old new).map (fun r => x :: r)

/-- `hotplug_replace_devpath_new` (lines 205-230): replace the first
occurrence of `oldstr` in `str` by `newstr`; `none` when `strstr` finds no
occurrence. -/
def hotplug_replace_devpath_new (str oldstr newstr : String) : Option String :=
  (replaceFirstAux str.data oldstr.data newstr.data).map String.mk

/-- Modelled from the spec: `uevent_replace_member` lives in common/uevent.c,
which is not under src/. The spec states that rename helpers produce a copy
of the immutable event with substituted fields, and that the coordinator
rewrites the interface and devpath fields with the new name; the model
substitutes `newm` for each of those fields whose current value equals
`oldm`. -/
def uevent_replace_member (e : Uevent) (oldm newm : String) : Uevent :=
  { e with
    interface := if e.interface = oldm then newm else e.interface,
    devpath := if e.devpath = oldm then newm else e.devpath,
    devname := if e.devname = oldm then newm else e.devname }

/-- `hotplug_rename_interface` (lines 263-329): pick the rename infix from
the event's devtype (eth when empty), rename the interface, record the
cmld physical-interface list bookkeeping, rebuild the devpath, and produce
the event copy with the new interface name and devpath. -/
def hotplug_rename_interface (e : Uevent) (rs : RenameState) (renameOk : Bool) :
    Option Uevent × List HAction × RenameState :=
  let pfx := if e.devtype = "" then "eth" else e.devtype
  let r := hotplug_rename_ifi_new e.interface pfx renameOk rs
  match r.1 with
  | none => (none, [], r.2)
  | some new_ifname =>
    let racts := [HAction.cmldNetifPhysRename e.interface new_ifname]
    match hotplug_replace_devpath_new e.devpath e.interface new_ifname with
    | none => (none, racts, r.2)
    | some new_devpath =>
      let uev_chname := uevent_replace_member e e.interface new_ifname
      let uev_chdevpath := uevent_replace_member uev_chname uev_chname.devpath new_devpath
      (some uev_chdevpath, racts, r.2)

/-- Oracles for the collaborator calls of `hotplug_netdev_move`:
`network_get_mac_by_ifname` for the event's interface, `cmld_containers_get_c0`,
`container_get_state`, `network_rename_ifi`, and the result of
`cmld_container_add_net_iface`. -/
structure MoveEnv where
  getMac : Option (List Nat)
  c0 : Option Nat
  stateOf : Nat → CompartmentState
  renameOk : Bool
  addIfaceOk : Bool

/-- Target resolution of `hotplug_netdev_move` (lines 345-366): first
mapping with a matching MAC, else the default container c0 under a
freshly created pnet configuration named after the interface with the
MAC filter off. -/
def resolveTarget (maps : List NetdevMapping) (c0 : Option Nat) (ifname : String)
    (mac : List Nat) : Option (Nat × PnetCfg) :=
  match maps.find? (fun m => m.mac == mac) with
  | some m => some (m.container, m.pnet)
  | none =>
    match c0 with
    | some c => some (c, { pnet_name := ifname, mac_filter := false })
    | none => none

/-- `hotplug_netdev_move` (lines 331-426). Returns the C result (0 or -1),
the collaborator calls in program order, and the rename counter state. -/
def hotplug_netdev_move (e : Uevent) (maps : List NetdevMapping) (env : MoveEnv)
    (rs : RenameState) : Int × List HAction × RenameState :=
  match env.getMac with
  | none => (-1, [], rs)
  | some mac =>
    match resolveTarget maps env.c0 e.interface mac with
    | none => (-1, [], rs)
    | some (c, cfg) =>
      if env.stateOf c ≠ CompartmentState.booting ∧
          env.stateOf c ≠ CompartmentState.running ∧
          env.stateOf c ≠ CompartmentState.starting then
        (-1, [], rs)
      else
        let r := hotplug_rename_interface e rs env.renameOk
        let ev := r.1.getD e
        let cfg' := { cfg with pnet_name := (r.1.map Uevent.interface).getD cfg.pnet_name }
        let acts := r.2.1 ++ [HAction.addNetIface c cfg' env.addIfaceOk]
        if env.addIfaceOk = false then (-1, acts, r.2.2)
        else if cfg'.mac_filter = true then (0, acts, r.2.2)
        else (0, acts ++ [HAction.injectUevent c ev.interface ev.devpath], r.2.2)

/-- Value of one hexadecimal digit. -/
def hexDigitVal (c : Char) : Option Nat :=
  if '0' ≤ c ∧ c ≤ '9' then some (c.toNat - '0'.toNat)
  else if 'a' ≤ c ∧ c ≤ 'f' then some (c.toNat - 'a'.toNat + 10)
  else if 'A' ≤ c ∧ c ≤ 'F' then some (c.toNat - 'A'.toNat + 10)
  else none

/-- Two hexadecimal digits forming one byte. -/
def parseHexByte : List Char → Option Nat
  | [c1, c2] =>
    match hexDigitVal c1, hexDigitVal c2 with
    | some h, some l => some (h * 16 + l)
    | _, _ => none
  | _ => none

/-- Split a character list at every occurrence of `c`. -/
def splitOnChar (c : Char) : List Char → List (List Char)
  | [] => [[]]
  | x :: xs =>
    let r := splitOnChar c xs
    if x = c then [] :: r
    else
      match r with
      | [] => [[x]]
      | y :: ys => (x :: y) :: ys

/-- Modelled from the spec: `network_str_to_mac_addr` lives in
common/network.c, which is not under src/. The spec's net mapping is a
6-byte MAC address given as the pnet name string; the model parses the
standard colon-separated six-group hexadecimal form, failing on anything
else. -/
def network_str_to_mac_addr (s : String) : Option (List Nat) :=
  let parts := splitOnChar ':' s.data
  if parts.length = 6 then
    let bytes := parts.filterMap parseHexByte
    if bytes.length = 6 then some bytes else none
  else none

/-- `hotplug_container_netdev_mapping_new` (lines 188-203): only strings
that parse as a MAC address are accepted. -/
def hotplug_container_netdev_mapping_new (container : Nat) (pnet_cfg : PnetCfg) :
    Option NetdevMapping :=
  match network_str_to_mac_addr pnet_cfg.pnet_name with
  | none => none
  | some mac => some { container := container, pnet := pnet_cfg, mac := mac }

/-- `hotplug_register_netdev` (lines 772-789): -1 and no list change when
the mapping constructor rejects the configuration, append otherwise. -/
def hotplug_register_netdev (maps : List NetdevMapping) (container : Nat)
    (pnet_cfg : PnetCfg) : List NetdevMapping × Int :=
  match hotplug_container_netdev_mapping_new container pnet_cfg with
  | none => (maps, -1)
  | some mapping => (maps ++ [mapping], 0)

/-- A heap of usbdev allocations plus the mapping registry: usbdev handles
are indices into `devs`. `hotplug_container_dev_mapping_new` copies the
record, so registry entries are snapshots, not references. -/
structure UsbHeapState where
  devs : List Usbdev
  maps : List DevMapping
deriving DecidableEq, Repr

/-- Heap step for `hotplug_usbdev_set_major` (lines 126-131): writes the
caller's usbdev record only. -/
def usbdevSetMajorOp (st : UsbHeapState) (h : Nat) (x : Int) : UsbHeapState :=
  match st.devs.get? h with
  | none => st
  | some d => { st with devs := st.devs.set h { d with major := x } }

/-- Heap step for `hotplug_register_usbdevice` on a usbdev handle. -/
def registerOp (st : UsbHeapState) (c : Nat) (h : Nat) : UsbHeapState :=
  match st.devs.get? h with
  | none => st
  | some d => { st with maps := (hotplug_register_usbdevice st.maps c d).1 }

/-- Does an action grant device-cgroup access for container `c`? -/
def isAllowFor (c : Nat) : HAction → Bool
  | HAction.deviceAllow c' _ _ _ _ => c' == c
  | _ => false

/-- Is an action any device-cgroup deny? -/
def isDenyAct : HAction → Bool
  | HAction.deviceDeny _ _ _ _ => true
  | _ => false

/-- Sample usb token device of spec scenario S1: vendor 0x1050 = 4176,
product 0x0407 = 1031, serial 0001. -/
def devToken : Usbdev := hotplug_usbdev_new UsbdevType.token 4176 1031 "0001" true

/-- Freshly registered mapping for `devToken` in compartment 1. -/
def mapTokenFresh : DevMapping := hotplug_container_dev_mapping_new 1 devToken

/-- The mapping of `devToken` after enrichment with device node 189:3. -/
def mapTokenBound : DevMapping :=
  { container := 1
    usbdev :=
      { i_serial := "0001", id_vendor := 4176, id_product := 1031,
        major := 189, minor := 3, assign := true, type := UsbdevType.token }
    assign := false }

/-- Usb add uevent of spec scenario S1. -/
def evUsbAdd : Uevent :=
  { action := "add", subsystem := "usb", devtype := "usb_device",
    devpath := "/devices/pci0/usb1/1-2", devname := "bus/usb/001/002", interface := "",
    major := 189, minor := 3, usb_vendor := 4176, usb_product := 1031 }

/-- Usb remove uevent of spec scenario S1. -/
def evUsbRemove : Uevent := { evUsbAdd with action := "remove" }

/-- Net add uevent of spec scenario S2. -/
def evNetAdd : Uevent :=
  { action := "add", subsystem := "net", devtype := "", devpath := "/devices/pci0/net/eth7",
    devname := "", interface := "eth7", major := 0, minor := 0, usb_vendor := 0,
    usb_product := 0 }

/-- Net mapping of spec scenario S2 without the MAC filter bridge. -/
def netMapPlain : NetdevMapping :=
  { container := 2
    pnet := { pnet_name := "02:00:00:00:00:01", mac_filter := false }
    mac := [2, 0, 0, 0, 0, 1] }

/-- Collaborator oracle where every compartment is running. -/
def envActive : MoveEnv :=
  { getMac := some [2, 0, 0, 0, 0, 1], c0 := some 0,
    stateOf := fun _ => CompartmentState.running, renameOk := true, addIfaceOk := true }

/-- Collaborator oracle where every compartment is stopped. -/
def envStopped : MoveEnv := { envActive with stateOf := fun _ => CompartmentState.stopped }

theorem usbAddProcessMapping_allow_count (e : Uevent) (serial : String) (m : DevMapping)
    (c : Nat) :
    ((usbAddProcessMapping e serial m).2).countP (isAllowFor c)
      = if usbAddMatches e serial m && m.container == c then 1 else 0 := by
  unfold usbAddProcessMapping
  by_cases h : usbAddMatches e serial m
  · by_cases ht : m.usbdev.type = UsbdevType.token <;>
      by_cases hc : m.container = c <;>
        simp [h, ht, hc, isAllowFor, List.countP_cons]
  · simp [h]

theorem usbAdd_allow_count (e : Uevent) (serial : String) (maps : List DevMapping) (c : Nat) :
    (maps.flatMap (fun m => (usbAddProcessMapping e serial m).2)).countP (isAllowFor c)
      = (maps.filter (fun m => usbAddMatches e serial m && m.container == c)).length := by
  induction maps with
  | nil => simp
  | cons m rest ih =>
    rw [List.flatMap_cons, List.countP_append, usbAddProcessMapping_allow_count, ih,
      List.filter_cons]
    by_cases h : (usbAddMatches e serial m && m.container == c) = true <;>
      simp [h, Nat.add_comm]

theorem usbAddProcessMapping_enriches (e : Uevent) (serial : String) (m : DevMapping)
    (h : usbAddMatches e serial m = true) :
    (usbAddProcessMapping e serial m).1
      = { m with usbdev := { m.usbdev with major := e.major, minor := e.minor } } := by
  simp [usbAddProcessMapping, h]

theorem usbAddProcessMapping_allow_mem (e : Uevent) (serial : String) (m : DevMapping)
    (h : usbAddMatches e serial m = true) :
    HAction.deviceAllow m.container 'c' e.major e.minor m.assign
      ∈ (usbAddProcessMapping e serial m).2 := by
  unfold usbAddProcessMapping
  rw [if_pos h]
  by_cases ht : m.usbdev.type = UsbdevType.token <;> simp [ht]

/-- C1: for every USB add uevent whose subsystem is usb and devtype is usb_device, and
every registered mapping whose vendor, product and serial equal the event's vendor,
product and the serial read from sysfs, the handler stores the event's (major, minor)
into that mapping and issues exactly one device-cgroup allow on the owning compartment
for that character device. -/
theorem usb_add_enriches_and_allows_once
    (e : Uevent) (serialRaw : Option String) (serial : String)
    (maps : List DevMapping) (m : DevMapping)
    (hsub : e.subsystem = "usb") (hdt : e.devtype = "usb_device")
    (hser : usb_serial_of serialRaw = some serial)
    (hm : m ∈ maps) (hmatch : usbAddMatches e serial m = true)
    (huniq : (maps.filter
      (fun x => usbAddMatches e serial x && x.container == m.container)).length = 1) :
    { m with usbdev := { m.usbdev with major := e.major, minor := e.minor } }
        ∈ (hotplug_handle_usb_device true false e serialRaw maps).1 ∧
    ((hotplug_handle_usb_device true false e serialRaw maps).2.1).countP
        (isAllowFor m.container) = 1 ∧
    HAction.deviceAllow m.container 'c' e.major e.minor m.assign
        ∈ (hotplug_handle_usb_device true false e serialRaw maps).2.1 := by
  have h1 : strIsPrefix "usb" e.subsystem = true := by rw [hsub]; rfl
  have h2 : strIsPrefix "usb_device" e.devtype = true := by rw [hdt]; rfl
  have hguard : ¬(strIsPrefix "usb" e.subsystem = false ∨
      strIsPrefix "usb_device" e.devtype = false) := by
    simp [h1, h2]
  have hgoal : hotplug_handle_usb_device true false e serialRaw maps
      = (maps.map (fun x => (usbAddProcessMapping e serial x).1),
         maps.flatMap (fun x => (usbAddProcessMapping e serial x).2), false) := by
    unfold hotplug_handle_usb_device usbAddHandle
    rw [if_neg hguard, hser]
    rfl
  rw [hgoal]
  refine ⟨?_, ?_, ?_⟩
  · exact List.mem_map.mpr ⟨m, hm, usbAddProcessMapping_enriches e serial m hmatch⟩
  · rw [usbAdd_allow_count]
    exact huniq
  · exact List.mem_flatMap.mpr ⟨m, hm, usbAddProcessMapping_allow_mem e serial m hmatch⟩

/-- C1 witness: spec scenario S1 instantiated. -/
theorem usb_add_enriches_and_allows_once_witness :
    usb_serial_of (some "0001\n") = some "0001" ∧
    ((hotplug_handle_usb_device true false evUsbAdd (some "0001\n")
        [mapTokenFresh]).2.1).countP (isAllowFor 1) = 1 :=
  ⟨by decide,
    (usb_add_enriches_and_allows_once evUsbAdd (some "0001\n") "0001" [mapTokenFresh]
      mapTokenFresh rfl rfl (by decide) (by decide) (by decide) (by decide)).2.1⟩

/-- C2 (counterexample): a remove uevent matching a bound token mapping makes the
handler emit only the token-detach call; no device-cgroup deny is issued, contrary to
the claim that the remove produces both. -/
theorem usb_remove_token_no_deny_cex :
    (hotplug_handle_usb_device false true evUsbRemove none [mapTokenBound]).2.1
      = [HAction.tokenDetach 1] ∧
    ((hotplug_handle_usb_device false true evUsbRemove none [mapTokenBound]).2.1).countP
      isDenyAct = 0 := by
  decide

/-- C2 (amended): for each mapping whose (major, minor) match the remove event the
handler emits exactly one call, namely token-detach when the mapping kind is token
(and in that case no device-cgroup deny), and a device-cgroup deny for every other
kind; each such call appears in the handler's remove output. -/
theorem usb_remove_detach_or_deny
    (e : Uevent) (maps : List DevMapping) (m : DevMapping)
    (hm : m ∈ maps) (hmaj : e.major = m.usbdev.major) (hmin : e.minor = m.usbdev.minor) :
    (m.usbdev.type = UsbdevType.token →
      usbRemoveStep e m = [HAction.tokenDetach m.container]) ∧
    (m.usbdev.type ≠ UsbdevType.token →
      usbRemoveStep e m
        = [HAction.deviceDeny m.container 'c' m.usbdev.major m.usbdev.minor]) ∧
    ∀ a ∈ usbRemoveStep e m, a ∈ usbRemoveHandle e maps := by
  refine ⟨?_, ?_, ?_⟩
  · intro ht
    simp [usbRemoveStep, hmaj, hmin, ht]
  · intro ht
    simp [usbRemoveStep, hmaj, hmin, ht]
  · intro a ha
    exact List.mem_flatMap.mpr ⟨m, hm, ha⟩

/-- C2 witness for the amended claim: the bound token mapping of scenario S1. -/
theorem usb_remove_detach_or_deny_witness :
    evUsbRemove.major = mapTokenBound.usbdev.major ∧
    usbRemoveStep evUsbRemove mapTokenBound = [HAction.tokenDetach 1] :=
  ⟨rfl,
    (usb_remove_detach_or_deny evUsbRemove [mapTokenBound] mapTokenBound (by decide)
      rfl rfl).1 rfl⟩

/-- C8 (counterexample): registering the same token serial for compartments 1 and 2
yields a reachable registry state holding token mappings with one serial in two
different compartments; the claimed invariant fails. -/
theorem usb_register_token_duplicate_cex :
    UsbRegReachable
      (hotplug_register_usbdevice (hotplug_register_usbdevice [] 1 devToken).1
        2 devToken).1 ∧
    ¬ tokenSerialUnique
      (hotplug_register_usbdevice (hotplug_register_usbdevice [] 1 devToken).1
        2 devToken).1 := by
  constructor
  · exact UsbRegReachable.register 2 devToken
      (UsbRegReachable.register 1 devToken UsbRegReachable.init)
  · unfold tokenSerialUnique
    decide

/-- C8 (amended): `hotplug_register_usbdevice` appends unconditionally, enforcing no
uniqueness: registering a token mapping whose serial already belongs to a token
mapping of a different compartment produces a registry in which two compartments
hold token mappings with that serial. -/
theorem usb_register_no_token_serial_uniqueness
    (s : List DevMapping) (c1 c2 : Nat) (d1 d2 : Usbdev)
    (h1 : d1.type = UsbdevType.token) (h2 : d2.type = UsbdevType.token)
    (hs : d1.i_serial = d2.i_serial) (hc : c1 ≠ c2) :
    ¬ tokenSerialUnique
      (hotplug_register_usbdevice (hotplug_register_usbdevice s c1 d1).1 c2 d2).1 := by
  intro hu
  have hm1 : hotplug_container_dev_mapping_new c1 d1
      ∈ (hotplug_register_usbdevice (hotplug_register_usbdevice s c1 d1).1 c2 d2).1 := by
    simp [hotplug_register_usbdevice]
  have hm2 : hotplug_container_dev_mapping_new c2 d2
      ∈ (hotplug_register_usbdevice (hotplug_register_usbdevice s c1 d1).1 c2 d2).1 := by
    simp [hotplug_register_usbdevice]
  have := hu _ hm1 _ hm2 h1 h2 hs
  exact hc this

/-- C8 witness for the amended claim: compartments 1 and 2 with the S1 token. -/
theorem usb_register_no_token_serial_uniqueness_witness :
    (1 : Nat) ≠ 2 ∧
    ¬ tokenSerialUnique
      (hotplug_register_usbdevice (hotplug_register_usbdevice [] 1 devToken).1
        2 devToken).1 :=
  ⟨by decide,
    usb_register_no_token_serial_uniqueness [] 1 2 devToken devToken rfl rfl rfl
      (by decide)⟩

/-- C9: `hotplug_register_netdev` fails with -1 and leaves the registry unchanged
when the configuration's name string does not parse as a MAC address; on success
the stored mapping's MAC equals the parsed value of that string. -/
theorem register_netdev_parse_behavior
    (maps : List NetdevMapping) (container : Nat) (pnet_cfg : PnetCfg) :
    (network_str_to_mac_addr pnet_cfg.pnet_name = none →
      hotplug_register_netdev maps container pnet_cfg = (maps, -1)) ∧
    ∀ mac, network_str_to_mac_addr pnet_cfg.pnet_name = some mac →
      hotplug_register_netdev maps container pnet_cfg
        = (maps ++ [{ container := container, pnet := pnet_cfg, mac := mac }], 0) := by
  constructor
  · intro h
    simp [hotplug_register_netdev, hotplug_container_netdev_mapping_new, h]
  · intro mac h
    simp [hotplug_register_netdev, hotplug_container_netdev_mapping_new, h]

/-- C9 witness: the S2 MAC string parses and registers; a non-MAC string fails with
the registry unchanged. -/
theorem register_netdev_parse_behavior_witness :
    network_str_to_mac_addr "02:00:00:00:00:01" = some [2, 0, 0, 0, 0, 1] ∧
    network_str_to_mac_addr "eth7" = none ∧
    hotplug_register_netdev [netMapPlain] 3 { pnet_name := "eth7", mac_filter := false }
      = ([netMapPlain], -1) :=
  ⟨by decide, by decide,
    (register_netdev_parse_behavior [netMapPlain] 3
      { pnet_name := "eth7", mac_filter := false }).1 (by decide)⟩

/-- C10: a mapping registered from a fresh `hotplug_usbdev_new` record carries
major = minor = -1; a remove uevent with nonnegative major over a registry whose
devices never appeared triggers no deny and no detach; and, because registration
deep-copies the usbdev record, mutating the caller's handle afterwards leaves the
stored mappings untouched. -/
theorem usb_mapping_fresh_minus_one_and_isolated
    (ty : UsbdevType) (v p : Nat) (s : String) (a : Bool) (c : Nat)
    (maps : List DevMapping) (e : Uevent) (st : UsbHeapState) (h : Nat) (x : Int)
    (hmaj : 0 ≤ e.major)
    (hall : ∀ m ∈ maps, m.usbdev.major = -1) :
    (hotplug_container_dev_mapping_new c (hotplug_usbdev_new ty v p s a)).usbdev.major
        = -1 ∧
    (hotplug_container_dev_mapping_new c (hotplug_usbdev_new ty v p s a)).usbdev.minor
        = -1 ∧
    usbRemoveHandle e maps = [] ∧
    (usbdevSetMajorOp (registerOp st c h) h x).maps = (registerOp st c h).maps := by
  refine ⟨rfl, rfl, ?_, ?_⟩
  · unfold usbRemoveHandle
    rw [List.flatMap_eq_nil_iff]
    intro m hm
    have hne : (e.major == m.usbdev.major) = false := by
      rw [hall m hm]
      simp only [beq_eq_false_iff_ne, ne_eq]
      omega
    simp [usbRemoveStep, hne]
  · unfold usbdevSetMajorOp
    split <;> rfl

/-- C10 witness: the fresh S1 token mapping ignores the remove uevent carrying
device node 189:3. -/
theorem usb_mapping_fresh_minus_one_and_isolated_witness :
    (0 : Int) ≤ evUsbRemove.major ∧
    usbRemoveHandle evUsbRemove [mapTokenFresh] = [] :=
  ⟨by decide,
    (usb_mapping_fresh_minus_one_and_isolated UsbdevType.generic 4176 1031 "0001" true 1
      [mapTokenFresh] evUsbRemove { devs := [devToken], maps := [] } 0 5 (by decide)
      (by decide)).2.2.1⟩

/-- C5: evaluation of the token debounce timer at the failing input. The retry
counter of `hotplug_token_timer_cb` is a single function-level static shared by
every timer the coordinator schedules: a fresh counter attaches on the first fire
when the node exists (first conjunct), a timer whose node never appears consumes
the counter down to -2 over 12 fires (second conjunct), and a timer created by a
later add event then cancels itself on its very first fire without invoking
token-attach even though the device node exists (third conjunct) — so the claimed
per-event 10-attempt budget does not hold for later events. -/
theorem token_timer_retry_budget_is_global :
    runTokenTimer 10 [true] = (9, some true, 1) ∧
    runTokenTimer 10 (List.replicate 12 false) = (-2, some false, 12) ∧
    runTokenTimer (runTokenTimer 10 (List.replicate 12 false)).1 [true]
      = (-3, some false, 1) := by
  decide

theorem counterOf_bumpCounter_cases (g p : String) (rs : RenameState) :
    counterOf g (bumpCounter p rs) = counterOf g rs ∨
    counterOf g (bumpCounter p rs) = (counterOf g rs + 1) % 4294967296 := by
  unfold counterOf bumpCounter
  by_cases hg : g = "wlan" <;> by_cases hp : p = "wlan" <;> simp [hg, hp]

theorem counterOf_bumpCounter_self (p : String) (rs : RenameState) :
    counterOf p (bumpCounter p rs) = (counterOf p rs + 1) % 4294967296 := by
  unfold counterOf bumpCounter
  by_cases hp : p = "wlan" <;> simp [hp]

theorem counterOf_bumpCounter_le_succ (g p : String) (rs : RenameState) :
    counterOf g (bumpCounter p rs) ≤ counterOf g rs + 1 := by
  rcases counterOf_bumpCounter_cases g p rs with h | h <;> rw [h]
  · omega
  · exact Nat.mod_le _ _

theorem counterOf_init (f : String) : counterOf f ⟨0, 0⟩ = 0 := by
  unfold counterOf
  by_cases h : f = "wlan" <;> simp [h]

theorem runRenames_cons_true (pfx : String) (rest : List (String × Bool))
    (rs : RenameState) :
    runRenames rs ((pfx, true) :: rest)
      = (pfx, "cml" ++ pfx ++ toString (printedIdx (counterOf pfx rs)), counterOf pfx rs)
          :: runRenames (bumpCounter pfx rs) rest := by
  simp [runRenames, hotplug_rename_ifi_new]

theorem runRenames_cons_false (pfx : String) (rest : List (String × Bool))
    (rs : RenameState) :
    runRenames rs ((pfx, false) :: rest) = runRenames (bumpCounter pfx rs) rest := by
  simp [runRenames, hotplug_rename_ifi_new]

theorem length_pos_of_mem_runRenames {rs : RenameState} {l : List (String × Bool)}
    {r : String × String × Nat} (h : r ∈ runRenames rs l) : 1 ≤ l.length := by
  cases l with
  | nil => simp [runRenames] at h
  | cons a l => simp

theorem runRenames_counter_le (t : List (String × Bool)) :
    ∀ rs r, r ∈ runRenames rs t → counterOf r.1 rs + t.length ≤ 4294967296 →
      counterOf r.1 rs ≤ r.2.2 := by
  induction t with
  | nil =>
    intro rs r hr _
    simp [runRenames] at hr
  | cons head rest ih =>
    obtain ⟨pfx, ok⟩ := head
    intro rs r hr hb
    simp only [List.length_cons] at hb
    have tailStep : r ∈ runRenames (bumpCounter pfx rs) rest → counterOf r.1 rs ≤ r.2.2 := by
      intro hr'
      have hlen1 := length_pos_of_mem_runRenames hr'
      rcases counterOf_bumpCounter_cases r.1 pfx rs with h | h
      · have := ih _ r hr' (by rw [h]; omega)
        omega
      · have hlt : counterOf r.1 rs + 1 < 4294967296 := by omega
        have h' : counterOf r.1 (bumpCounter pfx rs) = counterOf r.1 rs + 1 := by
          rw [h, Nat.mod_eq_of_lt hlt]
        have := ih _ r hr' (by rw [h']; omega)
        omega
    cases ok with
    | false =>
      rw [runRenames_cons_false] at hr
      exact tailStep hr
    | true =>
      rw [runRenames_cons_true] at hr
      rcases List.mem_cons.mp hr with h | h
      · subst h
        exact le_refl _
      · exact tailStep h

theorem runRenames_idx_lt (t : List (String × Bool)) :
    ∀ rs r, r ∈ runRenames rs t → r.2.2 < counterOf r.1 rs + t.length := by
  induction t with
  | nil =>
    intro rs r hr
    simp [runRenames] at hr
  | cons head rest ih =>
    obtain ⟨pfx, ok⟩ := head
    intro rs r hr
    simp only [List.length_cons]
    cases ok with
    | false =>
      rw [runRenames_cons_false] at hr
      have h1 := ih _ r hr
      have h2 := counterOf_bumpCounter_le_succ r.1 pfx rs
      omega
    | true =>
      rw [runRenames_cons_true] at hr
      rcases List.mem_cons.mp hr with h | h
      · subst h
        simp only []
        omega
      · have h1 := ih _ r h
        have h2 := counterOf_bumpCounter_le_succ r.1 pfx rs
        omega

theorem runRenames_name_shape (t : List (String × Bool)) :
    ∀ rs r, r ∈ runRenames rs t →
      r.2.1 = "cml" ++ r.1 ++ toString (printedIdx r.2.2) := by
  induction t with
  | nil =>
    intro rs r hr
    simp [runRenames] at hr
  | cons head rest ih =>
    obtain ⟨pfx, ok⟩ := head
    intro rs r hr
    cases ok with
    | false =>
      rw [runRenames_cons_false] at hr
      exact ih _ r hr
    | true =>
      rw [runRenames_cons_true] at hr
      rcases List.mem_cons.mp hr with h | h
      · subst h
        rfl
      · exact ih _ r h

theorem runRenames_family_pairwise (t : List (String × Bool)) :
    ∀ rs f, counterOf f rs + t.length ≤ 4294967296 →
      (familyIdxs f (runRenames rs t)).Pairwise (· < ·) := by
  induction t with
  | nil =>
    intro rs f _
    simp [runRenames, familyIdxs]
  | cons head rest ih =>
    obtain ⟨pfx, ok⟩ := head
    intro rs f hb
    simp only [List.length_cons] at hb
    cases ok with
    | false =>
      rw [runRenames_cons_false]
      refine ih _ f ?_
      have := counterOf_bumpCounter_le_succ f pfx rs
      omega
    | true =>
      rw [runRenames_cons_true]
      unfold familyIdxs
      rw [List.filterMap_cons]
      by_cases hf : pfx = f
      · subst hf
        simp only [if_pos rfl]
        refine List.Pairwise.cons ?_ (ih (bumpCounter pfx rs) pfx
          (by have := counterOf_bumpCounter_le_succ pfx pfx rs; omega))
        intro i hi
        obtain ⟨r, hr, hsome⟩ := List.mem_filterMap.mp hi
        by_cases hrf : r.1 = pfx
        · rw [if_pos hrf] at hsome
          have hlen1 := length_pos_of_mem_runRenames hr
          have hlt : counterOf pfx rs + 1 < 4294967296 := by omega
          have hself : counterOf r.1 (bumpCounter pfx rs) = counterOf pfx rs + 1 := by
            rw [hrf, counterOf_bumpCounter_self, Nat.mod_eq_of_lt hlt]
          have hle := runRenames_counter_le rest (bumpCounter pfx rs) r hr
            (by rw [hself]; omega)
          rw [hself] at hle
          have hi := Option.some.inj hsome
          omega
        · rw [if_neg hrf] at hsome
          exact absurd hsome (by simp)
      · simp only [if_neg hf]
        refine ih _ f ?_
        have := counterOf_bumpCounter_le_succ f pfx rs
        omega

theorem printedIdx_eq_of_lt {i : Nat} (h : i < 2147483648) : printedIdx i = (i : Int) :=
  if_pos h

theorem toString_intCast_nat (n : Nat) : toString ((n : Int)) = toString n := rfl

theorem runRenames_replicate_eth (n : Nat) :
    ∀ c w, c < 4294967296 →
      familyIdxs "eth" (runRenames ⟨w, c⟩ (List.replicate n ("eth", true)))
        = (List.range n).map (fun k => (c + k) % 4294967296) := by
  induction n with
  | zero =>
    intro c w _
    simp [runRenames, familyIdxs]
  | succ n ih =>
    intro c w hc
    rw [List.replicate_succ, runRenames_cons_true]
    have hco : counterOf "eth" (⟨w, c⟩ : RenameState) = c := by simp [counterOf]
    have hbc : bumpCounter "eth" (⟨w, c⟩ : RenameState)
        = ⟨w, (c + 1) % 4294967296⟩ := by simp [bumpCounter]
    unfold familyIdxs
    rw [List.filterMap_cons, if_pos rfl, hco, hbc]
    have htail := ih ((c + 1) % 4294967296) w (Nat.mod_lt _ (by omega))
    unfold familyIdxs at htail
    rw [htail, List.range_succ_eq_map, List.map_cons, List.map_map]
    have hfun : (fun k => ((c + 1) % 4294967296 + k) % 4294967296)
        = (fun k => (c + k) % 4294967296) ∘ Nat.succ := by
      funext k
      simp only [Function.comp_apply, Nat.mod_add_mod]
      omega
    rw [hfun]
    rw [Nat.add_zero, Nat.mod_eq_of_lt hc]

/-- C4 (counterexample): the rename counters are 32-bit; after 2^32 + 1 successful
eth renames from the initial state the drawn index has wrapped back to 0, so the
per-family index sequence is not strictly monotonically increasing across all
renames performed by the daemon. -/
theorem rename_index_wraps_cex :
    ¬ (familyIdxs "eth"
        (runRenames ⟨0, 0⟩
          (List.replicate 4294967297 ("eth", true)))).Pairwise (· < ·) := by
  rw [runRenames_replicate_eth 4294967297 0 0 (by omega)]
  intro hp
  rw [List.pairwise_iff_getElem] at hp
  have h := hp 0 4294967296 (by simp) (by simp) (by omega)
  rw [List.getElem_map, List.getElem_map, List.getElem_range, List.getElem_range] at h
  omega

/-- C4 (amended): the per-family rename index is drawn from a 32-bit unsigned
counter that increments modulo 2^32 on every rename attempt of the family and is
printed through %d. Provided the daemon has performed at most 2^32 rename
attempts (so no counter can wrap), the indices drawn by successful renames are
strictly monotonically increasing per family; every successful rename's name is
cml, the family, and the printed counter value, and within the first 2^31
attempts the printed value is the drawn index itself, giving the claimed
cml{eth|wlan}<n> shape. -/
theorem rename_indices_strictly_monotonic_per_family
    (t : List (String × Bool)) (f : String)
    (hf : f = "eth" ∨ f = "wlan")
    (ht : ∀ p ∈ t, p.1 = "eth" ∨ p.1 = "wlan")
    (hlen : t.length ≤ 4294967296) :
    (familyIdxs f (runRenames ⟨0, 0⟩ t)).Pairwise (· < ·) ∧
    (∀ r ∈ runRenames ⟨0, 0⟩ t, r.1 = f →
      r.2.1 = "cml" ++ f ++ toString (printedIdx r.2.2)) ∧
    (t.length ≤ 2147483648 → ∀ r ∈ runRenames ⟨0, 0⟩ t, r.1 = f →
      r.2.1 = "cml" ++ f ++ toString r.2.2) := by
  refine ⟨?_, ?_, ?_⟩
  · refine runRenames_family_pairwise t ⟨0, 0⟩ f ?_
    rw [counterOf_init]
    omega
  · intro r hr hrf
    rw [← hrf]
    exact runRenames_name_shape t ⟨0, 0⟩ r hr
  · intro hlen2 r hr hrf
    have hname := runRenames_name_shape t ⟨0, 0⟩ r hr
    have hup := runRenames_idx_lt t ⟨0, 0⟩ r hr
    rw [counterOf_init] at hup
    have hsmall : r.2.2 < 2147483648 := by omega
    rw [← hrf, hname, printedIdx_eq_of_lt hsmall, toString_intCast_nat]

/-- C4 witness: an eth rename, a wlan rename, a failed eth rename and another eth
rename draw the strictly increasing eth indices 0 and 2. -/
theorem rename_indices_strictly_monotonic_per_family_witness :
    (∀ p ∈ [("eth", true), ("wlan", true), ("eth", false), ("eth", true)],
      p.1 = "eth" ∨ p.1 = "wlan") ∧
    (familyIdxs "eth"
      (runRenames ⟨0, 0⟩
        [("eth", true), ("wlan", true), ("eth", false), ("eth", true)])).Pairwise
      (· < ·) :=
  ⟨by decide,
    (rename_indices_strictly_monotonic_per_family
      [("eth", true), ("wlan", true), ("eth", false), ("eth", true)] "eth"
      (Or.inl rfl) (by decide) (by decide)).1⟩

/-- C3: a net interface move is refused outright — error result, no collaborator
call at all, counters untouched — whenever the resolved target compartment is not
in the starting, booting or running state. -/
theorem netdev_move_refused_unless_active
    (e : Uevent) (maps : List NetdevMapping) (env : MoveEnv) (rs : RenameState)
    (mac : List Nat) (c : Nat) (cfg : PnetCfg)
    (hmac : env.getMac = some mac)
    (hres : resolveTarget maps env.c0 e.interface mac = some (c, cfg))
    (h1 : env.stateOf c ≠ CompartmentState.starting)
    (h2 : env.stateOf c ≠ CompartmentState.booting)
    (h3 : env.stateOf c ≠ CompartmentState.running) :
    hotplug_netdev_move e maps env rs = (-1, [], rs) := by
  simp only [hotplug_netdev_move, hmac, hres]
  rw [if_pos ⟨h2, h3, h1⟩]

/-- C3 witness: a stopped target compartment drops the S2 net add event. -/
theorem netdev_move_refused_unless_active_witness :
    envStopped.stateOf 0 ≠ CompartmentState.running ∧
    hotplug_netdev_move evNetAdd [] envStopped ⟨0, 0⟩ = (-1, [], ⟨0, 0⟩) :=
  ⟨by decide,
    netdev_move_refused_unless_active evNetAdd [] envStopped ⟨0, 0⟩ [2, 0, 0, 0, 0, 1] 0
      { pnet_name := "eth7", mac_filter := false } rfl (by decide) (by decide) (by decide)
      (by decide)⟩

/-- C6: a net add whose MAC matches no registered mapping is moved to the default
compartment c0 under a freshly built pnet configuration without the MAC filter,
provided c0 exists, is active, and the move call succeeds. -/
theorem netdev_move_unmatched_to_c0
    (e : Uevent) (maps : List NetdevMapping) (env : MoveEnv) (rs : RenameState)
    (mac : List Nat) (c : Nat)
    (hmac : env.getMac = some mac)
    (hno : ∀ m ∈ maps, m.mac ≠ mac)
    (hc0 : env.c0 = some c)
    (hstate : env.stateOf c = CompartmentState.starting ∨
      env.stateOf c = CompartmentState.booting ∨
      env.stateOf c = CompartmentState.running)
    (hadd : env.addIfaceOk = true) :
    (hotplug_netdev_move e maps env rs).1 = 0 ∧
    ∃ name, HAction.addNetIface c { pnet_name := name, mac_filter := false } true
        ∈ (hotplug_netdev_move e maps env rs).2.1 := by
  have hfind : maps.find? (fun m => m.mac == mac) = none := by
    rw [List.find?_eq_none]
    intro m hm
    simpa using hno m hm
  have hres : resolveTarget maps env.c0 e.interface mac
      = some (c, { pnet_name := e.interface, mac_filter := false }) := by
    simp [resolveTarget, hfind, hc0]
  have hcond : ¬(env.stateOf c ≠ CompartmentState.booting ∧
      env.stateOf c ≠ CompartmentState.running ∧
      env.stateOf c ≠ CompartmentState.starting) := by
    rcases hstate with h | h | h <;> simp [h]
  simp only [hotplug_netdev_move, hmac, hres, if_neg hcond, hadd]
  refine ⟨by simp, ?_⟩
  refine ⟨(((hotplug_rename_interface e rs env.renameOk).1).map Uevent.interface).getD
    e.interface, ?_⟩
  simp [List.mem_append]

theorem hotplug_rename_interface_acts (e : Uevent) (rs : RenameState) (ok : Bool) :
    ∀ a ∈ (hotplug_rename_interface e rs ok).2.1,
      ∃ o n, a = HAction.cmldNetifPhysRename o n := by
  intro a ha
  simp only [hotplug_rename_interface] at ha
  split at ha
  · simp at ha
  · split at ha
    · simp at ha
      exact ⟨_, _, ha⟩
    · simp at ha
      exact ⟨_, _, ha⟩

/-- C7: for a successfully moved interface with a matched mapping, the renamed
uevent is re-injected into the target compartment's net namespace exactly when the
mapping is not MAC-filter-bridged. -/
theorem netdev_move_inject_iff_no_macfilter
    (e : Uevent) (maps : List NetdevMapping) (env : MoveEnv) (rs : RenameState)
    (mac : List Nat) (m : NetdevMapping)
    (hmac : env.getMac = some mac)
    (hfind : maps.find? (fun x => x.mac == mac) = some m)
    (hstate : env.stateOf m.container = CompartmentState.starting ∨
      env.stateOf m.container = CompartmentState.booting ∨
      env.stateOf m.container = CompartmentState.running)
    (hadd : env.addIfaceOk = true) :
    (∃ i d, HAction.injectUevent m.container i d
        ∈ (hotplug_netdev_move e maps env rs).2.1) ↔ m.pnet.mac_filter = false := by
  have hres : resolveTarget maps env.c0 e.interface mac = some (m.container, m.pnet) := by
    simp [resolveTarget, hfind]
  have hcond : ¬(env.stateOf m.container ≠ CompartmentState.booting ∧
      env.stateOf m.container ≠ CompartmentState.running ∧
      env.stateOf m.container ≠ CompartmentState.starting) := by
    rcases hstate with h | h | h <;> simp [h]
  simp only [hotplug_netdev_move, hmac, hres, if_neg hcond, hadd]
  rw [if_neg (show ¬(true = false) by simp)]
  by_cases hmf : m.pnet.mac_filter = true
  · rw [if_pos hmf]
    constructor
    · rintro ⟨i, d, hmem⟩
      exfalso
      rcases List.mem_append.mp hmem with h | h
      · obtain ⟨o, n, heq⟩ := hotplug_rename_interface_acts e rs env.renameOk _ h
        exact absurd heq (by simp)
      · simp at h
    · intro hfalse
      rw [hmf] at hfalse
      exact absurd hfalse (by simp)
  · have hmf' : m.pnet.mac_filter = false := by
      cases h : m.pnet.mac_filter
      · rfl
      · exact absurd h hmf
    rw [if_neg hmf]
    constructor
    · intro _
      exact hmf'
    · intro _
      exact ⟨((hotplug_rename_interface e rs env.renameOk).1.getD e).interface,
        ((hotplug_rename_interface e rs env.renameOk).1.getD e).devpath, by simp⟩

/-- C7 witness: the unbridged S2 mapping gets its uevent re-injected. -/
theorem netdev_move_inject_iff_no_macfilter_witness :
    [netMapPlain].find? (fun x => x.mac == [2, 0, 0, 0, 0, 1]) = some netMapPlain ∧
    ((∃ i d, HAction.injectUevent 2 i d
        ∈ (hotplug_netdev_move evNetAdd [netMapPlain] envActive ⟨0, 0⟩).2.1)
      ↔ netMapPlain.pnet.mac_filter = false) :=
  ⟨by decide,
    netdev_move_inject_iff_no_macfilter evNetAdd [netMapPlain] envActive ⟨0, 0⟩
      [2, 0, 0, 0, 0, 1] netMapPlain rfl (by decide) (Or.inr (Or.inr rfl)) rfl⟩

/-- C6 witness: the S2 interface with no registered mapping lands in c0. -/
theorem netdev_move_unmatched_to_c0_witness :
    envActive.c0 = some 0 ∧
    ((hotplug_netdev_move evNetAdd [] envActive ⟨0, 0⟩).1 = 0 ∧
      ∃ name, HAction.addNetIface 0 { pnet_name := name, mac_filter := false } true
        ∈ (hotplug_netdev_move evNetAdd [] envActive ⟨0, 0⟩).2.1) :=
  ⟨rfl,
    netdev_move_unmatched_to_c0 evNetAdd [] envActive ⟨0, 0⟩ [2, 0, 0, 0, 0, 1] 0 rfl
      (by simp) rfl (Or.inr (Or.inr rfl)) rfl⟩
